import Mathlib

/-!
Verification of the findings database and repository discovery ranker of the
bug-bounty-hunter scripts.

The development is a shallow embedding of the decision logic of
`src/scripts/findings-db.py` (the SQLite-backed findings store) and
`src/scripts/github-monitor.py` (the repository discovery ranker):

* The `findings` table is a `List Finding`; its rows keep the column order of
  `init_database`.  SQL `TIMESTAMP` values are modelled as abstract clock
  readings of type `Nat` (every call site passes `datetime.now()`), and SQL
  `REAL` columns as exact rationals.
* Each Python method that touches the database becomes a pure function taking
  the table and the current clock reading; statements that can raise
  `sqlite3.IntegrityError` (a `UNIQUE`, `NOT NULL` or `CHECK` constraint
  violation) return `Except DBError`.
* The discovery ranker's GitHub search calls are modelled by their results: a
  list of result pages, one per entry of `SOLANA_QUERIES`.  Python float
  arithmetic in `_calculate_priority` is modelled by exact rationals.
-/

deriving instance DecidableEq for Except

namespace BountyScripts

/-- Severity values accepted by the `CHECK(severity IN ...)` constraint of the
findings table, listed in the order used by `get_pending_findings`
(`severity_order`, findings-db.py line 272). -/
def severity_order : List String :=
  ["Critical", "High", "Medium", "Low", "Informational"]

/-- Status values accepted by the `CHECK(status IN ...)` constraint of the
findings table (findings-db.py line 80). -/
def status_values : List String :=
  ["pending", "approved", "rejected", "submitted", "confirmed", "paid"]

/-- One row of the `findings` table.  Columns declared `NOT NULL` in
`init_database` are plain values; nullable columns are `Option`s.  Timestamps
are abstract clock readings (`Nat`), `REAL` columns are `ℚ`. -/
structure Finding where
  finding_id : String
  repo_name : String
  repo_url : String
  repo_owner : Option String
  file_path : Option String
  line_number : Option Int
  vulnerability_type : String
  title : String
  description : Option String
  severity : String
  impact : Option String
  recommendation : Option String
  code_snippet : Option String
  status : String
  confidence : ℚ
  analyzer : Option String
  scan_id : Option String
  created_at : Nat
  updated_at : Nat
  submitted_at : Option Nat
  bounty_platform : Option String
  bounty_url : Option String
  bounty_amount : Option ℚ
  notes : Option String
deriving DecidableEq

/-- Error taxonomy of the store layer: `sqlite3.IntegrityError` (uniqueness,
`NOT NULL` or enumerated-value constraint) and a not-found signal. -/
inductive DBError where
  | constraintViolation
  | notFound
deriving DecidableEq

/-- Input record accepted by `add_finding`: a JSON-like dictionary, every key
optional (`finding.get(...)` returns `None` for absent keys). -/
structure FindingInput where
  finding_id : Option String := none
  repo_name : Option String := none
  repo_url : Option String := none
  repo_owner : Option String := none
  file_path : Option String := none
  line_number : Option Int := none
  vulnerability_type : Option String := none
  title : Option String := none
  description : Option String := none
  severity : Option String := none
  impact : Option String := none
  recommendation : Option String := none
  code_snippet : Option String := none
  status : Option String := none
  confidence : Option ℚ := none
  analyzer : Option String := none
  scan_id : Option String := none
  created_at : Option Nat := none
  bounty_platform : Option String := none
  bounty_url : Option String := none
  bounty_amount : Option ℚ := none
  notes : Option String := none
deriving DecidableEq

/-- Finding id used by the insert: the caller's id, or
`FND-<YYYYMMDD>-<repo_name[:10]>` generated from the current date when absent
(findings-db.py lines 153-154; `repo_name` defaults to `"unknown"`). -/
def effective_finding_id (f : FindingInput) (today : String) : String :=
  f.finding_id.getD ("FND-" ++ today ++ "-" ++ (f.repo_name.getD "unknown").take 10)

/-- Embedding of `FindingsDatabase.add_finding` (findings-db.py lines 140-183).
The `INSERT` lists only the columns shown at lines 156-161, so the remaining
columns take their schema defaults: `status` is `'pending'`, the bounty
columns and `notes` are `NULL`, `updated_at` is the current time.  The insert
raises `IntegrityError` when a `NOT NULL` column is `None`, when `severity`
fails its `CHECK`, or when `finding_id` already exists (`UNIQUE`); on success
`cursor.lastrowid` is the next `AUTOINCREMENT` value, here `db.length + 1`
for an append-only table.  `now` stands for `datetime.now()` and `today` for
its `YYYYMMDD` rendering. -/
def add_finding (db : List Finding) (f : FindingInput) (now : Nat) (today : String) :
    Except DBError (List Finding × Nat) :=
  let fid := effective_finding_id f today
  match f.repo_name, f.repo_url, f.vulnerability_type, f.title, f.severity with
  | some rn, some ru, some vt, some ti, some sev =>
    if sev ∈ severity_order then
      if db.any (fun r => r.finding_id == fid) then
        .error .constraintViolation
      else
        .ok (db ++ [{ finding_id := fid
                      repo_name := rn
                      repo_url := ru
                      repo_owner := f.repo_owner
                      file_path := f.file_path
                      line_number := f.line_number
                      vulnerability_type := vt
                      title := ti
                      description := f.description
                      severity := sev
                      impact := f.impact
                      recommendation := f.recommendation
                      code_snippet := f.code_snippet
                      status := "pending"
                      confidence := f.confidence.getD 0
                      analyzer := f.analyzer
                      scan_id := f.scan_id
                      created_at := f.created_at.getD now
                      updated_at := now
                      submitted_at := none
                      bounty_platform := none
                      bounty_url := none
                      bounty_amount := none
                      notes := none }], db.length + 1)
    else .error .constraintViolation
  | _, _, _, _, _ => .error .constraintViolation

/-- Effect of the two `UPDATE` statements of `update_finding_status` on one
matching row (findings-db.py lines 196-207): both branches set `status`,
`updated_at` and `notes = COALESCE(?, notes)`; only the `status == 'submitted'`
branch also sets `submitted_at`. -/
def updateRow (r : Finding) (s : String) (now : Nat) (notes : Option String) : Finding :=
  { r with
    status := s
    updated_at := now
    submitted_at := if s == "submitted" then some now else r.submitted_at
    notes := match notes with | some n => some n | none => r.notes }

/-- Embedding of `FindingsDatabase.update_finding_status` (findings-db.py lines
185-209).  The `UPDATE ... WHERE finding_id = ?` touches every matching row;
SQLite re-checks `CHECK(status IN ...)` on each updated row, so the statement
raises `IntegrityError` exactly when some row matches and the new status is
outside the enumeration.  A `finding_id` matching no rows updates nothing and
raises nothing. -/
def update_finding_status (db : List Finding) (finding_id s : String) (now : Nat)
    (notes : Option String) : Except DBError (List Finding) :=
  if db.any (fun r => r.finding_id == finding_id) && !(status_values.contains s) then
    .error .constraintViolation
  else
    .ok (db.map (fun r => if r.finding_id == finding_id then updateRow r s now notes else r))

/-- Embedding of `FindingsDatabase.get_finding_by_id` (findings-db.py lines
255-260): `fetchone` on `SELECT * WHERE finding_id = ?` is the first matching
row. -/
def get_finding_by_id (db : List Finding) (finding_id : String) : Option Finding :=
  db.find? (fun r => r.finding_id == finding_id)

/-- Value of the `CASE severity ... END` expression in the `ORDER BY` of
`get_pending_findings` (findings-db.py lines 283-289). -/
def caseRank (sev : String) : Nat :=
  if sev == "Critical" then 1
  else if sev == "High" then 2
  else if sev == "Medium" then 3
  else if sev == "Low" then 4
  else 5

/-- Row order requested by `ORDER BY CASE severity ... END, confidence DESC`. -/
def pendingOrder (a b : Finding) : Prop :=
  caseRank a.severity < caseRank b.severity ∨
    (caseRank a.severity = caseRank b.severity ∧ b.confidence ≤ a.confidence)

instance : DecidableRel pendingOrder := fun a b =>
  inferInstanceAs (Decidable (caseRank a.severity < caseRank b.severity ∨
    (caseRank a.severity = caseRank b.severity ∧ b.confidence ≤ a.confidence)))

instance : IsTotal Finding pendingOrder where
  total a b := by
    unfold pendingOrder
    rcases Nat.lt_trichotomy (caseRank a.severity) (caseRank b.severity) with h | h | h
    · exact Or.inl (Or.inl h)
    · rcases le_total a.confidence b.confidence with hc | hc
      · exact Or.inr (Or.inr ⟨h.symm, hc⟩)
      · exact Or.inl (Or.inr ⟨h, hc⟩)
    · exact Or.inr (Or.inl h)

instance : IsTrans Finding pendingOrder where
  trans a b c hab hbc := by
    unfold pendingOrder at *
    rcases hab with h1 | ⟨h1, hc1⟩
    · rcases hbc with h2 | ⟨h2, _⟩
      · exact Or.inl (h1.trans h2)
      · exact Or.inl (h2 ▸ h1)
    · rcases hbc with h2 | ⟨h2, hc2⟩
      · exact Or.inl (h1 ▸ h2)
      · exact Or.inr ⟨h1.trans h2, hc2.trans hc1⟩

/-- Embedding of `FindingsDatabase.get_pending_findings` (findings-db.py lines
262-293).  An unrecognised `min_severity` yields index 0; the `IN` list is the
prefix `severity_order[:min_index + 1]`; the `ORDER BY` is modelled by a
stable sort under `pendingOrder`. -/
def get_pending_findings (db : List Finding) (min_severity : String) : List Finding :=
  let min_index := if min_severity ∈ severity_order
    then severity_order.indexOf min_severity else 0
  let allowed_severities := severity_order.take (min_index + 1)
  List.insertionSort pendingOrder
    (db.filter (fun r => r.status == "pending" && allowed_severities.contains r.severity))

/-- Arguments of one `update_finding_status` call, for reasoning about call
sequences. -/
structure Upd where
  finding_id : String
  status : String
  now : Nat
  notes : Option String
deriving DecidableEq

/-- Runs one status update; a statement that raises leaves the store unchanged
(the failed transaction is never committed). -/
def runUpdate (db : List Finding) (u : Upd) : List Finding :=
  match update_finding_status db u.finding_id u.status u.now u.notes with
  | .ok db' => db'
  | .error _ => db

/-- Runs a sequence of `update_finding_status` calls, first call first. -/
def runUpdates (db : List Finding) (ops : List Upd) : List Finding :=
  ops.foldl runUpdate db

/-- Clock reading of the last call in `ops` that targets `fid` with new status
`submitted`, or `init` when there is none. -/
def last_submitted_time (ops : List Upd) (fid : String) (init : Option Nat) : Option Nat :=
  ops.foldl
    (fun acc u => if u.finding_id = fid ∧ u.status = "submitted" then some u.now else acc)
    init

/-! Embedding of the repository discovery ranker (`src/scripts/github-monitor.py`). -/

/-- Keyword list of `is_solana_project` (github-monitor.py line 146). -/
def solana_keywords : List String := ["solana", "spl", "anchor", "sealevel"]

/-- Static exclusion list `EXCLUDED_REPOS` (github-monitor.py lines 35-38). -/
def EXCLUDED_REPOS : List String :=
  ["solana-labs/solana", "solana-labs/solana-program-library"]

/-- Keyword list of `_calculate_priority` (github-monitor.py line 299). -/
def priority_keywords : List String :=
  ["token", "defi", "lending", "dex", "amm", "staking", "governance"]

/-- Occurrence of `pat` as a contiguous run of `hay`, embedding the Python
substring test `pat in hay`. -/
def charsContain (pat : List Char) : List Char → Bool
  | [] => pat.isEmpty
  | c :: cs => pat.isPrefixOf (c :: cs) || charsContain pat cs

/-- Substring test on strings: Python `pat in text`. -/
def strContains (text pat : String) : Bool :=
  charsContain pat.data text.data

/-- Python `str.lower`, mapping each character to lower case (the descriptions
and topics compared here are ASCII). -/
def strLower (s : String) : String :=
  ⟨s.data.map Char.toLower⟩

/-- One GitHub search result item, restricted to the keys the monitor reads.
`days_since_update` embeds `(datetime.now(tz) - fromisoformat(updated_at)).days`
for a parseable `updated_at`; `none` stands for a missing `updated_at` or one
the parser rejects — the bare `except` at line 290 then contributes 0 points.
`updated_at` and `created_at` keep the raw strings the monitor copies into its
output. -/
structure Repo where
  id : Nat
  name : String
  full_name : String
  owner_login : String
  html_url : String
  clone_url : String
  stargazers_count : Nat
  forks_count : Nat
  language : Option String
  description : Option String
  topics : List String
  archived : Bool
  days_since_update : Option Int
  updated_at : String
  created_at : String
deriving DecidableEq

/-- Embedding of `GitHubMonitor.is_solana_project` (github-monitor.py lines
134-159): keyword substring in the lower-cased description, keyword membership
in the lower-cased topic list, or primary language `Rust`. -/
def is_solana_project (repo : Repo) : Bool :=
  solana_keywords.any (fun kw => strContains (strLower (repo.description.getD "")) kw) ||
  solana_keywords.any (fun kw => (repo.topics.map strLower).contains kw) ||
  repo.language == some "Rust"

/-- Embedding of `GitHubMonitor.should_audit` (github-monitor.py lines
161-189). -/
def should_audit (repo : Repo) (min_stars : Nat) : Bool :=
  if repo.stargazers_count < min_stars then false
  else if EXCLUDED_REPOS.contains repo.full_name then false
  else if !is_solana_project repo then false
  else if repo.archived then false
  else true

/-- Recency contribution of `_calculate_priority` (github-monitor.py lines
278-291): 30, 20, 10 or 0 points by days since the last update, 0 when the
timestamp is absent or unparseable. -/
def recency_points (repo : Repo) : Nat :=
  match repo.days_since_update with
  | some d => if d < 7 then 30 else if d < 30 then 20 else if d < 90 then 10 else 0
  | none => 0

/-- Number of `priority_keywords` occurring in the lower-cased description
(github-monitor.py lines 297-302); each match adds 2 points. -/
def keyword_matches (repo : Repo) : Nat :=
  (priority_keywords.filter
    (fun kw => strContains (strLower (repo.description.getD "")) kw)).length

/-- Embedding of `GitHubMonitor._calculate_priority` (github-monitor.py lines
260-304).  The Python float arithmetic becomes exact rational arithmetic, and
the final `int(score)` truncation becomes the floor (the score is a sum of
nonnegative terms). -/
def calculate_priority (repo : Repo) : Int :=
  ⌊min ((repo.stargazers_count : ℚ) / 100) 40 + (recency_points repo : ℚ)
    + min ((repo.forks_count : ℚ) / 20) 20 + 2 * (keyword_matches repo : ℚ)⌋

/-- Record appended to `discovered` for an admitted repository
(github-monitor.py lines 232-247). -/
structure DiscoveredRepo where
  id : Nat
  name : String
  full_name : String
  owner : String
  url : String
  clone_url : String
  stars : Nat
  forks : Nat
  language : Option String
  description : Option String
  topics : List String
  updated_at : String
  created_at : String
  audit_priority : Int
deriving DecidableEq

/-- Builds the dictionary appended to `discovered` from a search result item. -/
def toDiscovered (repo : Repo) : DiscoveredRepo :=
  { id := repo.id
    name := repo.name
    full_name := repo.full_name
    owner := repo.owner_login
    url := repo.html_url
    clone_url := repo.clone_url
    stars := repo.stargazers_count
    forks := repo.forks_count
    language := repo.language
    description := repo.description
    topics := repo.topics
    updated_at := repo.updated_at
    created_at := repo.created_at
    audit_priority := calculate_priority repo }

/-- Inner `for repo in repos` loop of `discover_repositories` (github-monitor.py
lines 224-250): mark the id as seen (even when the repository is then
rejected), append admitted repositories, and break as soon as `max_repos` have
been collected.  Returns the collected list and the seen set. -/
def discoverScan (min_stars max_repos : Nat) :
    List Repo → List Nat → List DiscoveredRepo → List DiscoveredRepo × List Nat
  | [], seen, discovered => (discovered, seen)
  | repo :: rest, seen, discovered =>
    if seen.contains repo.id then
      discoverScan min_stars max_repos rest seen discovered
    else
      let seen' := repo.id :: seen
      if should_audit repo min_stars then
        let discovered' := discovered ++ [toDiscovered repo]
        if max_repos ≤ discovered'.length then (discovered', seen')
        else discoverScan min_stars max_repos rest seen' discovered'
      else discoverScan min_stars max_repos rest seen' discovered

/-- Outer `for query in SOLANA_QUERIES` loop (github-monitor.py lines 216-253),
breaking once `max_repos` repositories have been collected. -/
def discoverQueries (min_stars max_repos : Nat) :
    List (List Repo) → List Nat → List DiscoveredRepo → List DiscoveredRepo
  | [], _, discovered => discovered
  | q :: rest, seen, discovered =>
    let step := discoverScan min_stars max_repos q seen discovered
    if max_repos ≤ step.1.length then step.1
    else discoverQueries min_stars max_repos rest step.2 step.1

/-- Order produced by `discovered.sort(key=lambda x: x["audit_priority"],
reverse=True)`. -/
def priorityGE (a b : DiscoveredRepo) : Prop :=
  b.audit_priority ≤ a.audit_priority

instance : DecidableRel priorityGE := fun a b =>
  inferInstanceAs (Decidable (b.audit_priority ≤ a.audit_priority))

instance : IsTotal DiscoveredRepo priorityGE where
  total a b := le_total b.audit_priority a.audit_priority

instance : IsTrans DiscoveredRepo priorityGE where
  trans _ _ _ hab hbc := le_trans hbc hab

/-- Embedding of `GitHubMonitor.discover_repositories` (github-monitor.py lines
191-258).  `queryResults` is one result page per entry of `SOLANA_QUERIES`
(the recency window lives in the query string, and a failed search degrades to
an empty page); the collected list is sorted by priority descending and cut to
`max_repos`. -/
def discover_repositories (queryResults : List (List Repo)) (max_repos min_stars : Nat) :
    List DiscoveredRepo :=
  (List.insertionSort priorityGE
    (discoverQueries min_stars max_repos queryResults [] [])).take max_repos

/-- Deduplicated, admitted candidate list over all query results with no early
stop: what step 5 of the spec's ranking algorithm would sort. -/
def admittedAll (min_stars : Nat) : List Repo → List Nat → List DiscoveredRepo
  | [], _ => []
  | repo :: rest, seen =>
    if seen.contains repo.id then admittedAll min_stars rest seen
    else if should_audit repo min_stars then
      toDiscovered repo :: admittedAll min_stars rest (repo.id :: seen)
    else admittedAll min_stars rest (repo.id :: seen)

/-- Seen set after scanning a whole result list. -/
def seenAfter : List Repo → List Nat → List Nat
  | [], seen => seen
  | repo :: rest, seen =>
    if seen.contains repo.id then seenAfter rest seen
    else seenAfter rest (repo.id :: seen)

/-! Concrete records used to exercise the definitions on explicit inputs. -/

/-- Stored finding row with the given id, severity, status, confidence and
submission timestamp; the remaining columns are fixed innocuous values. -/
def mkF (fid sev st : String) (conf : ℚ) (sub : Option Nat) : Finding :=
  { finding_id := fid
    repo_name := "acme/vault"
    repo_url := "https://github.com/acme/vault"
    repo_owner := some "acme"
    file_path := some "src/lib.rs"
    line_number := some 10
    vulnerability_type := "integer-overflow"
    title := "Unchecked arithmetic"
    description := none
    severity := sev
    impact := none
    recommendation := none
    code_snippet := none
    status := st
    confidence := conf
    analyzer := some "llm"
    scan_id := none
    created_at := 0
    updated_at := 0
    submitted_at := sub
    bounty_platform := none
    bounty_url := none
    bounty_amount := none
    notes := none }

/-- Pending High-severity finding for the invalid-threshold counterexample. -/
def pendingHigh : Finding := mkF "C2-HIGH" "High" "pending" 9 none

/-- One-row store whose only finding id is `FND-A`. -/
def otherDb : List Finding := [mkF "FND-A" "High" "pending" 5 none]

/-- Insert input carrying a status value outside the six enumerated ones. -/
def invalidStatusInput : FindingInput :=
  { finding_id := some "C4-1"
    repo_name := some "acme/vault"
    repo_url := some "https://github.com/acme/vault"
    vulnerability_type := some "reentrancy"
    title := some "Reentrant withdraw"
    severity := some "High"
    status := some "definitely-invalid" }

/-- Well-formed insert input for the constraint-characterisation witness. -/
def okInput : FindingInput :=
  { finding_id := some "C4-2"
    repo_name := some "acme/vault"
    repo_url := some "https://github.com/acme/vault"
    vulnerability_type := some "reentrancy"
    title := some "Reentrant withdraw"
    severity := some "Medium" }

/-- Pending finding used by the status-update witnesses. -/
def f5 : Finding := mkF "F5" "High" "pending" 5 none

/-- Pending finding used by the submitted-at theorems. -/
def f6 : Finding := mkF "F6" "High" "pending" 5 none

/-- One-row store holding `f6`. -/
def db6 : List Finding := [f6]

/-- Scenario findings of the severity-ranked retrieval claim, inserted in the
order Critical, Low, High, Medium. -/
def scenCrit : Finding := mkF "S-C" "Critical" "pending" 80 none

/-- Scenario finding of severity Low. -/
def scenLow : Finding := mkF "S-L" "Low" "pending" 95 none

/-- Scenario finding of severity High. -/
def scenHigh : Finding := mkF "S-H" "High" "pending" 60 none

/-- Scenario finding of severity Medium. -/
def scenMed : Finding := mkF "S-M" "Medium" "pending" 70 none

/-- Store holding the four scenario findings in insertion order. -/
def scenarioDb : List Finding := [scenCrit, scenLow, scenHigh, scenMed]

/-- Insert input that supplies values for every column the INSERT ignores. -/
def c10input : FindingInput :=
  { finding_id := some "C10-1"
    repo_name := some "acme/vault"
    repo_url := some "https://github.com/acme/vault"
    vulnerability_type := some "logic-error"
    title := some "Oracle drift"
    severity := some "Low"
    status := some "paid"
    confidence := some 7
    bounty_platform := some "immunefi"
    bounty_url := some "https://immunefi.com/acme"
    bounty_amount := some 5000
    notes := some "already rewarded" }

/-- Row actually stored when inserting `c10input` at time 9: caller-supplied
status, bounty fields and notes are absent from the INSERT column list, so the
schema defaults land in the table. -/
def c10row : Finding :=
  { finding_id := "C10-1"
    repo_name := "acme/vault"
    repo_url := "https://github.com/acme/vault"
    repo_owner := none
    file_path := none
    line_number := none
    vulnerability_type := "logic-error"
    title := "Oracle drift"
    description := none
    severity := "Low"
    impact := none
    recommendation := none
    code_snippet := none
    status := "pending"
    confidence := 7
    analyzer := none
    scan_id := none
    created_at := 9
    updated_at := 9
    submitted_at := none
    bounty_platform := none
    bounty_url := none
    bounty_amount := none
    notes := none }

/-- Search result item with the given id, stars, forks, description and age. -/
def mkRepo (i stars forks : Nat) (desc : Option String) (days : Option Int) : Repo :=
  { id := i
    name := "vault"
    full_name := "acme/vault"
    owner_login := "acme"
    html_url := "https://github.com/acme/vault"
    clone_url := "https://github.com/acme/vault.git"
    stargazers_count := stars
    forks_count := forks
    language := some "Rust"
    description := desc
    topics := []
    archived := false
    days_since_update := days
    updated_at := "2026-02-10T00:00:00Z"
    created_at := "2025-01-01T00:00:00Z" }

/-- The spec's scoring scenario: 4000 stars, pushed 2 days ago, 80 forks,
description "solana lending protocol". -/
def repoScenario : Repo := mkRepo 1 4000 80 (some "solana lending protocol") (some 2)

/-- Repository maximising every scoring term: caps on stars and forks, pushed
yesterday, all seven priority keywords in the description. -/
def repoMax : Repo :=
  mkRepo 2 4000 400 (some "token defi lending dex amm staking governance") (some 1)

/-- Admitted repository with a low priority score. -/
def repoLow : Repo := mkRepo 3 100 0 none none

/-- Admitted repository with a high priority score. -/
def repoHigh : Repo := mkRepo 4 4000 400 (some "solana token defi lending dex amm") (some 1)

/-- Closed form of the priority score over the naturals: the two capped
rational terms share the denominator 100, and the floor of the sum splits off
the integer recency and keyword terms. -/
theorem calculate_priority_natForm (repo : Repo) :
    calculate_priority repo =
      ((min repo.stargazers_count 4000 + 5 * min repo.forks_count 400) / 100
        + recency_points repo + 2 * keyword_matches repo : ℕ) := by
  unfold calculate_priority
  have hs : min ((repo.stargazers_count : ℚ) / 100) 40
      = ((min repo.stargazers_count 4000 : ℕ) : ℚ) / 100 := by
    rw [show (40 : ℚ) = ((4000 : ℕ) : ℚ) / 100 by norm_num,
      min_div_div_right (by norm_num : (0 : ℚ) ≤ 100), ← Nat.cast_min]
  have hf : min ((repo.forks_count : ℚ) / 20) 20
      = ((min repo.forks_count 400 : ℕ) : ℚ) / 20 := by
    nth_rewrite 2 [show (20 : ℚ) = ((400 : ℕ) : ℚ) / 20 by norm_num]
    rw [min_div_div_right (by norm_num : (0 : ℚ) ≤ 20), ← Nat.cast_min]
  rw [hs, hf]
  have hsum : ((min repo.stargazers_count 4000 : ℕ) : ℚ) / 100 + (recency_points repo : ℚ)
      + ((min repo.forks_count 400 : ℕ) : ℚ) / 20 + 2 * (keyword_matches repo : ℚ)
      = ((min repo.stargazers_count 4000 + 5 * min repo.forks_count 400 : ℕ) : ℚ)
          / ((100 : ℕ) : ℚ)
        + ((recency_points repo + 2 * keyword_matches repo : ℕ) : ℚ) := by
    push_cast
    ring
  rw [hsum, Int.floor_add_nat, Rat.floor_natCast_div_natCast]
  push_cast [Int.natCast_div]
  ring

/-- The per-row update keeps the row's finding id. -/
theorem updateRow_finding_id (r : Finding) (s : String) (t : Nat) (n : Option String) :
    (updateRow r s t n).finding_id = r.finding_id := rfl

/-- Lookup commutes with mapping a finding-id-preserving function over the
store. -/
theorem get_finding_by_id_map (db : List Finding) (fid : String) (g : Finding → Finding)
    (hg : ∀ x, (g x).finding_id = x.finding_id) :
    get_finding_by_id (db.map g) fid = (get_finding_by_id db fid).map g := by
  unfold get_finding_by_id
  induction db with
  | nil => rfl
  | cons a l ih =>
    rw [List.map_cons]
    by_cases h : (a.finding_id == fid) = true
    · rw [@List.find?_cons_of_pos _ (fun r => r.finding_id == fid) (g a) (List.map g l)
          (by dsimp only; rw [hg a]; exact h),
        @List.find?_cons_of_pos _ (fun r => r.finding_id == fid) a l h, Option.map_some']
    · rw [@List.find?_cons_of_neg _ (fun r => r.finding_id == fid) (g a) (List.map g l)
          (by dsimp only; rw [hg a]; exact h),
        @List.find?_cons_of_neg _ (fun r => r.finding_id == fid) a l h, ih]

/-- A successful `update_finding_status` returns the mapped store. -/
theorem update_finding_status_ok_inv {db db' : List Finding} {fid s : String} {t : Nat}
    {n : Option String} (h : update_finding_status db fid s t n = .ok db') :
    db' = db.map fun r => if r.finding_id == fid then updateRow r s t n else r := by
  unfold update_finding_status at h
  split at h
  · cases h
  · injection h with h
    exact h.symm

/-- With a status from the enumeration, `update_finding_status` always
succeeds and returns the mapped store. -/
theorem update_finding_status_valid (db : List Finding) (fid s : String) (t : Nat)
    (n : Option String) (hs : s ∈ status_values) :
    update_finding_status db fid s t n
      = .ok (db.map fun r => if r.finding_id == fid then updateRow r s t n else r) := by
  have hc : status_values.contains s = true := by simpa using hs
  unfold update_finding_status
  simp [hc]
  exact fun x _ _ => hs

/-- Claim C3 (corrected): a status update whose finding id matches no stored
record does not fail: the statement updates zero rows, raises nothing, and
leaves the store unchanged; no NotFound error exists on this path. -/
theorem C3_missing_id_noop (db : List Finding) (fid s : String) (t : Nat)
    (n : Option String) (h : ∀ r ∈ db, r.finding_id ≠ fid) :
    update_finding_status db fid s t n = .ok db := by
  have hany : db.any (fun r => r.finding_id == fid) = false := by
    rw [List.any_eq_false]
    intro r hr
    simpa using h r hr
  have hmap : (db.map fun r => if r.finding_id == fid then updateRow r s t n else r) = db := by
    have hp : ∀ r ∈ db, (if r.finding_id == fid then updateRow r s t n else r) = r := by
      intro r hr
      rw [if_neg]
      simpa using h r hr
    rw [List.map_congr_left hp, List.map_id']
  unfold update_finding_status
  rw [hany, Bool.false_and, if_neg (by simp), hmap]

/-- Claim C3 counterexample: on a store whose only finding id is `FND-A`,
updating the absent id `FND-MISSING` returns success with the store unchanged
instead of failing with NotFound, refuting the claimed error. -/
theorem C3_cex :
    update_finding_status otherDb "FND-MISSING" "approved" 9 none = .ok otherDb ∧
    update_finding_status otherDb "FND-MISSING" "approved" 9 none
      ≠ .error DBError.notFound := by decide

/-- Claim C3 witness: the no-op theorem applied to the concrete store. -/
theorem C3_w : update_finding_status otherDb "FND-MISSING" "approved" 9 none = .ok otherDb :=
  C3_missing_id_noop otherDb "FND-MISSING" "approved" 9 none (by decide)

/-- Claim C5 (confirmed): a successful status update sets `updated_at` to the
current time, sets `submitted_at` to the current time exactly when the new
status is `submitted`, preserves stored notes when none are supplied and
replaces them when they are; hence after an update to `submitted` the row's
`submitted_at` is the current time and a later update to `confirmed` leaves it
unchanged. -/
theorem C5_update_semantics (db : List Finding) (fid s : String) (t : Nat)
    (notes : Option String) (r : Finding) (db' : List Finding)
    (hr : get_finding_by_id db fid = some r)
    (hok : update_finding_status db fid s t notes = .ok db') :
    get_finding_by_id db' fid = some (updateRow r s t notes) ∧
    (updateRow r s t notes).updated_at = t ∧
    (updateRow r s t notes).submitted_at
      = (if s = "submitted" then some t else r.submitted_at) ∧
    (notes = none → (updateRow r s t notes).notes = r.notes) ∧
    (∀ m, notes = some m → (updateRow r s t notes).notes = some m) ∧
    (r.updated_at ≤ t → r.updated_at ≤ (updateRow r s t notes).updated_at) ∧
    (updateRow r "submitted" t none).submitted_at = some t ∧
    (∀ t2 n2, (updateRow (updateRow r "submitted" t none) "confirmed" t2 n2).submitted_at
      = some t) := by
  obtain rfl := update_finding_status_ok_inv hok
  have hr' : db.find? (fun x => x.finding_id == fid) = some r := hr
  have hrid : (r.finding_id == fid) = true :=
    @List.find?_some _ (fun x => x.finding_id == fid) r db hr'
  refine ⟨?_, rfl, ?_, ?_, ?_, fun h => h, rfl, fun t2 n2 => rfl⟩
  · rw [get_finding_by_id_map db fid _ (fun x => by split <;> rfl), hr,
      Option.map_some', if_pos hrid]
  · by_cases hs : s = "submitted" <;> simp [updateRow, hs]
  · intro hn
    simp [updateRow, hn]
  · intro m hm
    simp [updateRow, hm]

/-- Claim C5 witness: the update semantics at a concrete one-row store, status
`approved` at time 7 with no notes. -/
theorem C5_w :
    get_finding_by_id [updateRow f5 "approved" 7 none] "F5"
        = some (updateRow f5 "approved" 7 none) ∧
    (updateRow f5 "approved" 7 none).updated_at = 7 ∧
    (updateRow f5 "approved" 7 none).submitted_at
      = (if "approved" = "submitted" then some 7 else f5.submitted_at) ∧
    ((none : Option String) = none → (updateRow f5 "approved" 7 none).notes = f5.notes) ∧
    (∀ m, (none : Option String) = some m → (updateRow f5 "approved" 7 none).notes = some m) ∧
    (f5.updated_at ≤ 7 → f5.updated_at ≤ (updateRow f5 "approved" 7 none).updated_at) ∧
    (updateRow f5 "submitted" 7 none).submitted_at = some 7 ∧
    (∀ t2 n2, (updateRow (updateRow f5 "submitted" 7 none) "confirmed" t2 n2).submitted_at
      = some 7) :=
  C5_update_semantics [f5] "F5" "approved" 7 none f5 [updateRow f5 "approved" 7 none]
    (by decide) (by decide)

/-- Effect of one `update_finding_status` call on the `submitted_at` of a
stored finding: it becomes the call's time exactly when the call targets the
finding with new status `submitted`, and is untouched otherwise (including
when the call fails on its status CHECK). -/
theorem runUpdate_get (db : List Finding) (u : Upd) (fid : String) (r : Finding)
    (hr : get_finding_by_id db fid = some r) :
    ∃ r', get_finding_by_id (runUpdate db u) fid = some r' ∧
      r'.submitted_at = (if u.finding_id = fid ∧ u.status = "submitted"
        then some u.now else r.submitted_at) := by
  unfold runUpdate
  rcases hok : update_finding_status db u.finding_id u.status u.now u.notes with e | db'
  · refine ⟨r, hr, ?_⟩
    unfold update_finding_status at hok
    split at hok
    · rename_i hcond
      have hinv : status_values.contains u.status = false := by
        rcases Bool.and_eq_true_iff.mp hcond with ⟨-, hnc⟩
        simpa using hnc
      rw [if_neg]
      rintro ⟨-, hsub⟩
      rw [hsub] at hinv
      simp [status_values] at hinv
    · cases hok
  · obtain rfl := update_finding_status_ok_inv hok
    have hr' : db.find? (fun x => x.finding_id == fid) = some r := hr
    have hrid : r.finding_id = fid := by
      simpa using @List.find?_some _ (fun x => x.finding_id == fid) r db hr'
    rw [get_finding_by_id_map db fid _ (fun x => by split <;> rfl), hr, Option.map_some']
    by_cases hf : u.finding_id = fid
    · refine ⟨_, rfl, ?_⟩
      rw [if_pos (by simp [hrid, hf])]
      by_cases hsub : u.status = "submitted"
      · simp [updateRow, hsub, hf]
      · simp [updateRow, hsub, hf]
    · refine ⟨_, rfl, ?_⟩
      rw [if_neg (by simp [hrid]; exact fun hh => hf hh.symm),
        if_neg (by rintro ⟨h1, -⟩; exact hf h1)]

/-- A call sequence with no `submitted` update of `fid` leaves the fold of
`last_submitted_time` at its initial value. -/
theorem last_submitted_time_of_no_submit (ops : List Upd) (fid : String)
    (init : Option Nat)
    (h : ∀ u ∈ ops, u.finding_id = fid → u.status ≠ "submitted") :
    last_submitted_time ops fid init = init := by
  induction ops generalizing init with
  | nil => rfl
  | cons u ops ih =>
    unfold last_submitted_time at *
    rw [List.foldl_cons, if_neg (by rintro ⟨h1, h2⟩; exact h u (by simp) h1 h2)]
    exact ih init (fun v hv => h v (by simp [hv]))

/-- The fold of `last_submitted_time` never turns a set value back into
`none`. -/
theorem last_submitted_time_ne_none (ops : List Upd) (fid : String) :
    ∀ init : Option Nat, init ≠ none → last_submitted_time ops fid init ≠ none := by
  induction ops with
  | nil => exact fun init h => h
  | cons u ops ih =>
    intro init h
    unfold last_submitted_time at *
    rw [List.foldl_cons]
    apply ih
    split
    · simp
    · exact h

/-- Claim C6 (corrected): over any sequence of status updates, a stored
finding's `submitted_at` equals the time of the most recent update into
`submitted` that targeted it (its prior value when there is none).  It is
null until the first such update and never cleared afterwards — but it is not
set exactly once: every further update into `submitted` overwrites it with
the new current time. -/
theorem C6_submitted_at (ops : List Upd) (db : List Finding) (fid : String)
    (r : Finding) (hr : get_finding_by_id db fid = some r) :
    ∃ r', get_finding_by_id (runUpdates db ops) fid = some r' ∧
      r'.submitted_at = last_submitted_time ops fid r.submitted_at ∧
      (r.submitted_at = none →
        (∀ u ∈ ops, u.finding_id = fid → u.status ≠ "submitted") →
        r'.submitted_at = none) ∧
      (r.submitted_at ≠ none → r'.submitted_at ≠ none) := by
  have main : ∀ ops' (db' : List Finding) (r' : Finding),
      get_finding_by_id db' fid = some r' →
      ∃ r'', get_finding_by_id (runUpdates db' ops') fid = some r'' ∧
        r''.submitted_at = last_submitted_time ops' fid r'.submitted_at := by
    intro ops'
    induction ops' with
    | nil => exact fun db' r' h => ⟨r', h, rfl⟩
    | cons u ops' ih =>
      intro db' r' h
      obtain ⟨r1, hget1, hsub1⟩ := runUpdate_get db' u fid r' h
      obtain ⟨r'', hget, hsub⟩ := ih (runUpdate db' u) r1 hget1
      exact ⟨r'', hget, by rw [hsub, hsub1]; rfl⟩
  obtain ⟨r', h1, h2⟩ := main ops db r hr
  refine ⟨r', h1, h2, ?_, ?_⟩
  · intro hnone hno
    rw [h2, hnone, last_submitted_time_of_no_submit ops fid none hno]
  · intro hne
    rw [h2]
    exact last_submitted_time_ne_none ops fid r.submitted_at hne

/-- Claim C6 witness: the amended theorem at a concrete store with an update
into `submitted` at time 5 followed by an update into `confirmed` at time
8. -/
theorem C6_w :
    ∃ r', get_finding_by_id
        (runUpdates db6 [⟨"F6", "submitted", 5, none⟩, ⟨"F6", "confirmed", 8, none⟩]) "F6"
          = some r' ∧
      r'.submitted_at = last_submitted_time
        [⟨"F6", "submitted", 5, none⟩, ⟨"F6", "confirmed", 8, none⟩] "F6" f6.submitted_at ∧
      (f6.submitted_at = none →
        (∀ u ∈ ([⟨"F6", "submitted", 5, none⟩, ⟨"F6", "confirmed", 8, none⟩] : List Upd),
          u.finding_id = "F6" → u.status ≠ "submitted") →
        r'.submitted_at = none) ∧
      (f6.submitted_at ≠ none → r'.submitted_at ≠ none) :=
  C6_submitted_at [⟨"F6", "submitted", 5, none⟩, ⟨"F6", "confirmed", 8, none⟩]
    db6 "F6" f6 (by decide)

/-- Claim C6 counterexample: after a `submitted` update at time 5 the stored
`submitted_at` is 5, but a second `submitted` update at time 9 changes it to
9 — the field is not write-once under later update calls. -/
theorem C6_cex :
    (get_finding_by_id (runUpdates db6 [⟨"F6", "submitted", 5, none⟩]) "F6").map
        (fun r => r.submitted_at) = some (some 5) ∧
    (get_finding_by_id (runUpdates db6
        [⟨"F6", "submitted", 5, none⟩, ⟨"F6", "submitted", 9, none⟩]) "F6").map
        (fun r => r.submitted_at) = some (some 9) := by decide

/-- Claim C2 (corrected): a `min_severity` outside the five enumerated values
does not fail, but it does not admit every severity either: the computed index
falls back to 0, the `IN` list becomes `["Critical"]`, and the query behaves
exactly like `min_severity = "Critical"` — only pending findings of severity
Critical are returned. -/
theorem C2_invalid_threshold (db : List Finding) (s : String) (hs : s ∉ severity_order) :
    get_pending_findings db s = get_pending_findings db "Critical" ∧
    get_pending_findings db s =
      List.insertionSort pendingOrder
        (db.filter fun r => r.status == "pending" && r.severity == "Critical") := by
  have h1 : get_pending_findings db s =
      List.insertionSort pendingOrder
        (db.filter fun r => r.status == "pending" && r.severity == "Critical") := by
    simp only [get_pending_findings]
    rw [if_neg hs, show severity_order.take (0 + 1) = ["Critical"] from rfl]
    congr 1
    apply List.filter_congr
    intro x _
    simp only [List.contains_cons, List.contains_nil, Bool.or_false]
  have h2 : get_pending_findings db "Critical" =
      List.insertionSort pendingOrder
        (db.filter fun r => r.status == "pending" && r.severity == "Critical") := by
    simp only [get_pending_findings]
    rw [if_pos (show "Critical" ∈ severity_order by decide),
      show severity_order.take (severity_order.indexOf "Critical" + 1) = ["Critical"] from rfl]
    congr 1
    apply List.filter_congr
    intro x _
    simp only [List.contains_cons, List.contains_nil, Bool.or_false]
  exact ⟨h1.trans h2.symm, h1⟩

/-- Claim C2 witness: the invalid threshold `“HIGH”` (wrong case) behaves like
`Critical` on a one-row store. -/
theorem C2_w :
    get_pending_findings [pendingHigh] "HIGH" = get_pending_findings [pendingHigh] "Critical" ∧
    get_pending_findings [pendingHigh] "HIGH" =
      List.insertionSort pendingOrder
        ([pendingHigh].filter fun r => r.status == "pending" && r.severity == "Critical") :=
  C2_invalid_threshold [pendingHigh] "HIGH" (by decide)

/-- Claim C2 counterexample: with one pending High finding in the store, an
invalid threshold returns the empty list, not all pending findings — the same
finding is returned under the valid threshold `High`. -/
theorem C2_cex :
    get_pending_findings [pendingHigh] "not-a-severity" = [] ∧
    get_pending_findings [pendingHigh] "High" = [pendingHigh] := by decide

/-- Claim C7 (confirmed): for a valid threshold, `get_pending_findings`
returns exactly the pending findings whose severity rank in
{Critical, High, Medium, Low, Informational} is at or above the threshold's
rank, sorted by severity rank ascending and then by confidence descending; on
the scenario store with severities Critical, Low, High, Medium the query at
`Medium` returns the Critical, High and Medium rows in that order. -/
theorem C7_pending_above (db : List Finding) (s : String) (hs : s ∈ severity_order)
    (hdb : ∀ r ∈ db, r.severity ∈ severity_order) :
    (get_pending_findings db s).Perm
        (db.filter fun r => r.status == "pending"
          && decide (severity_order.indexOf r.severity ≤ severity_order.indexOf s)) ∧
    List.Sorted pendingOrder (get_pending_findings db s) ∧
    get_pending_findings scenarioDb "Medium" = [scenCrit, scenHigh, scenMed] := by
  have h0 : get_pending_findings db s =
      List.insertionSort pendingOrder
        (db.filter fun r => r.status == "pending" &&
          (severity_order.take (severity_order.indexOf s + 1)).contains r.severity) := by
    simp only [get_pending_findings]
    rw [if_pos hs]
  have heq : (db.filter fun r => r.status == "pending" &&
        (severity_order.take (severity_order.indexOf s + 1)).contains r.severity)
      = db.filter fun r => r.status == "pending"
          && decide (severity_order.indexOf r.severity ≤ severity_order.indexOf s) := by
    apply List.filter_congr
    intro x hx
    refine congrArg (fun b => x.status == "pending" && b) ?_
    have hxs := hdb x hx
    simp only [severity_order, List.mem_cons, List.not_mem_nil, or_false] at hs hxs
    rcases hs with h1 | h1 | h1 | h1 | h1 <;> rcases hxs with h2 | h2 | h2 | h2 | h2 <;>
      subst h1 <;> rw [h2] <;> decide
  refine ⟨?_, ?_, by decide⟩
  · rw [h0, heq]
    exact List.perm_insertionSort _ _
  · rw [h0]
    exact List.sorted_insertionSort pendingOrder _

/-- Claim C7 witness: the ranked-retrieval theorem at the scenario store and
threshold `Medium`. -/
theorem C7_w :
    (get_pending_findings scenarioDb "Medium").Perm
        (scenarioDb.filter fun r => r.status == "pending"
          && decide (severity_order.indexOf r.severity ≤ severity_order.indexOf "Medium")) ∧
    List.Sorted pendingOrder (get_pending_findings scenarioDb "Medium") ∧
    get_pending_findings scenarioDb "Medium" = [scenCrit, scenHigh, scenMed] :=
  C7_pending_above scenarioDb "Medium" (by decide) (by decide)

/-- Claim C4 (corrected): the insert fails with ConstraintViolation exactly
when a NOT NULL column is absent (repo_name, repo_url, vulnerability_type,
title), the severity is absent or outside the five enumerated values, or the
effective finding id already exists; otherwise it succeeds and returns the
storage-local sequence number.  A caller-supplied status is not part of the
INSERT at all, so an invalid status value never causes a failure. -/
theorem C4_insert_constraints (db : List Finding) (f : FindingInput) (now : Nat)
    (today : String) :
    (add_finding db f now today = .error DBError.constraintViolation ↔
      f.repo_name = none ∨ f.repo_url = none ∨ f.vulnerability_type = none ∨
      f.title = none ∨ (∀ sev, f.severity = some sev → sev ∉ severity_order) ∨
      (∃ r ∈ db, r.finding_id = effective_finding_id f today)) ∧
    (∀ db' n, add_finding db f now today = .ok (db', n) → n = db.length + 1) := by
  simp only [add_finding]
  cases hrn : f.repo_name <;> cases hru : f.repo_url <;> cases hvt : f.vulnerability_type <;>
    cases hti : f.title <;> cases hsev : f.severity
  all_goals try (exact ⟨by simp, by intro db' n h; cases h⟩)
  rename_i sev
  dsimp only
  constructor
  · by_cases hmem : sev ∈ severity_order
    · rw [if_pos hmem]
      by_cases hdup : db.any (fun r => r.finding_id == effective_finding_id f today) = true
      · rw [if_pos hdup]
        have hex : ∃ r ∈ db, r.finding_id = effective_finding_id f today := by
          obtain ⟨r, hr, hb⟩ := List.any_eq_true.mp hdup
          exact ⟨r, hr, by simpa using hb⟩
        exact iff_of_true rfl (by tauto)
      · rw [if_neg hdup]
        apply iff_of_false
        · simp
        · rintro (h | h | h | h | h | h)
          · cases h
          · cases h
          · cases h
          · cases h
          · exact h sev rfl hmem
          · refine hdup (List.any_eq_true.mpr ?_)
            obtain ⟨r, hr, hb⟩ := h
            exact ⟨r, hr, by simpa using hb⟩
    · rw [if_neg hmem]
      exact iff_of_true rfl
        (Or.inr (Or.inr (Or.inr (Or.inr (Or.inl
          (fun s' hs' => (Option.some.inj hs') ▸ hmem))))))
  · by_cases hmem : sev ∈ severity_order
    · rw [if_pos hmem]
      by_cases hdup : db.any (fun r => r.finding_id == effective_finding_id f today) = true
      · rw [if_pos hdup]
        intro db' n h
        cases h
      · rw [if_neg hdup]
        intro db' n h
        injection h with h1
        injection h1 with h2 h3
        exact h3.symm
    · rw [if_neg hmem]
      intro db' n h
      cases h

/-- Claim C4 witness: the constraint characterisation at the well-formed input
`okInput` against the empty store. -/
theorem C4_w :
    (add_finding [] okInput 5 "20260101" = .error DBError.constraintViolation ↔
      okInput.repo_name = none ∨ okInput.repo_url = none ∨
      okInput.vulnerability_type = none ∨ okInput.title = none ∨
      (∀ sev, okInput.severity = some sev → sev ∉ severity_order) ∨
      (∃ r ∈ ([] : List Finding), r.finding_id = effective_finding_id okInput "20260101")) ∧
    (∀ db' n, add_finding [] okInput 5 "20260101" = .ok (db', n)
      → n = ([] : List Finding).length + 1) :=
  C4_insert_constraints [] okInput 5 "20260101"

/-- Claim C4 counterexample: an insert whose input carries the status value
`definitely-invalid` — outside the six enumerated values — succeeds instead of
failing with ConstraintViolation. -/
theorem C4_cex :
    add_finding [] invalidStatusInput 5 "20260101" ≠ .error DBError.constraintViolation ∧
    (∃ db' n, add_finding [] invalidStatusInput 5 "20260101" = .ok (db', n)) ∧
    invalidStatusInput.status = some "definitely-invalid" ∧
    "definitely-invalid" ∉ status_values := by
  refine ⟨by decide, ⟨_, _, rfl⟩, rfl, by decide⟩

/-- Claim C10 (confirmed): whatever the input record contains for status,
bounty_platform, bounty_url, bounty_amount or notes, a successful insert
appends a row with status `pending` and null bounty fields and notes — those
input fields are ignored by the INSERT. -/
theorem C10_insert_defaults (db : List Finding) (f : FindingInput) (now : Nat)
    (today : String) (db' : List Finding) (n : Nat)
    (h : add_finding db f now today = .ok (db', n)) :
    ∃ row, db' = db ++ [row] ∧ row.status = "pending" ∧ row.bounty_platform = none ∧
      row.bounty_url = none ∧ row.bounty_amount = none ∧ row.notes = none := by
  simp only [add_finding] at h
  split at h
  · split at h
    · split at h
      · cases h
      · injection h with h1
        injection h1 with h2 h3
        exact ⟨_, h2.symm, rfl, rfl, rfl, rfl, rfl⟩
    · cases h
  · cases h

/-- Claim C10 witness: inserting `c10input` — which supplies a paid status,
bounty platform, url, amount and notes — stores `c10row` with status
`pending` and null bounty and notes columns. -/
theorem C10_w :
    ∃ row, [c10row] = ([] : List Finding) ++ [row] ∧ row.status = "pending" ∧
      row.bounty_platform = none ∧ row.bounty_url = none ∧ row.bounty_amount = none ∧
      row.notes = none :=
  C10_insert_defaults [] c10input 9 "20260101" [c10row] 1 (by decide)

/-- Claim C1 (code bug): the priority score is not bounded by 100.  The
keyword bonus is 2 points for each of the seven keywords while the other three
terms reach 40 + 30 + 20, so a repository at the star and fork caps, pushed
yesterday, whose description contains all seven keywords scores
40 + 30 + 20 + 14 = 104, contradicting the function's own docstring range of
0-100 and its comment capping keywords at 10 points. -/
theorem C1_priority_overflow :
    calculate_priority repoMax = 104 ∧ (100 : Int) < calculate_priority repoMax := by
  have h : calculate_priority repoMax = 104 := by
    rw [calculate_priority_natForm]
    decide
  exact ⟨h, by rw [h]; decide⟩

/-- Claim C9 counterexample: the spec's scenario repository scores 76, not
78. -/
theorem C9_cex : calculate_priority repoScenario ≠ 78 := by
  rw [calculate_priority_natForm]
  decide

/-- Claim C9 (corrected): the scenario repository — 4000 stars, pushed 2 days
ago, 80 forks, description "solana lending protocol" — scores
min(40,40) + 30 + min(4,20) + 2 = 76: only the keyword `lending` is in the
fixed keyword set, so the keyword bonus is 2, not 4. -/
theorem C9_scenario_score :
    calculate_priority repoScenario = 76 ∧ keyword_matches repoScenario = 1 ∧
    recency_points repoScenario = 30 := by
  refine ⟨?_, by decide, by decide⟩
  rw [calculate_priority_natForm]
  decide

/-- Splitting the full admitted-candidate list at a query boundary. -/
theorem admittedAll_append (ms : Nat) (l1 l2 : List Repo) (seen : List Nat) :
    admittedAll ms (l1 ++ l2) seen
      = admittedAll ms l1 seen ++ admittedAll ms l2 (seenAfter l1 seen) := by
  induction l1 generalizing seen with
  | nil => rfl
  | cons a l ih =>
    rw [List.cons_append]
    simp only [admittedAll, seenAfter]
    by_cases h1 : (seen.contains a.id) = true
    · simp only [if_pos h1]
      exact ih seen
    · simp only [if_neg h1]
      by_cases h2 : should_audit a ms = true
      · simp only [if_pos h2, List.cons_append]
        rw [ih (a.id :: seen)]
      · simp only [if_neg h2]
        exact ih (a.id :: seen)

/-- The inner scan loop collects exactly the next `N - acc.length` admitted
candidates in encounter order, and — when it did not stop early — consumes the
whole result page, leaving the seen set of the full page. -/
theorem discoverScan_eq (ms N : Nat) (repos : List Repo) (seen : List Nat)
    (acc : List DiscoveredRepo) (hacc : acc.length < N) :
    (discoverScan ms N repos seen acc).1
        = acc ++ (admittedAll ms repos seen).take (N - acc.length) ∧
    ((discoverScan ms N repos seen acc).1.length < N →
      (discoverScan ms N repos seen acc).2 = seenAfter repos seen) := by
  induction repos generalizing seen acc with
  | nil =>
    refine ⟨by simp [discoverScan, admittedAll], fun _ => rfl⟩
  | cons a l ih =>
    simp only [discoverScan, admittedAll, seenAfter]
    by_cases h1 : (seen.contains a.id) = true
    · simp only [if_pos h1]
      exact ih seen acc hacc
    · simp only [if_neg h1]
      by_cases h2 : should_audit a ms = true
      · simp only [if_pos h2]
        by_cases h3 : N ≤ (acc ++ [toDiscovered a]).length
        · simp only [if_pos h3]
          rw [List.length_append, List.length_singleton] at h3
          constructor
          · have hN : N - acc.length = 1 := by omega
            rw [hN, List.take_succ_cons, List.take_zero]
          · intro hlen
            rw [List.length_append, List.length_singleton] at hlen
            omega
        · simp only [if_neg h3]
          rw [List.length_append, List.length_singleton] at h3
          push_neg at h3
          have hlt : (acc ++ [toDiscovered a]).length < N := by
            rw [List.length_append, List.length_singleton]
            exact h3
          obtain ⟨ha, hb⟩ := ih (a.id :: seen) (acc ++ [toDiscovered a]) hlt
          rw [List.length_append, List.length_singleton] at ha
          constructor
          · rw [ha, show N - acc.length = (N - (acc.length + 1)) + 1 from by omega,
              List.take_succ_cons, List.append_assoc, List.singleton_append]
          · exact hb
      · simp only [if_neg h2]
        exact ih (a.id :: seen) acc hacc

/-- The query loop collects the first `N - acc.length` admitted candidates of
the concatenated result pages, in encounter order. -/
theorem discoverQueries_eq (ms N : Nat) (qs : List (List Repo)) (seen : List Nat)
    (acc : List DiscoveredRepo) (hacc : acc.length < N) :
    discoverQueries ms N qs seen acc
      = acc ++ (admittedAll ms qs.flatten seen).take (N - acc.length) := by
  induction qs generalizing seen acc with
  | nil => simp [discoverQueries, List.flatten_nil, admittedAll]
  | cons q rest ih =>
    unfold discoverQueries
    obtain ⟨h1, h2⟩ := discoverScan_eq ms N q seen acc hacc
    have haux : (discoverScan ms N q seen acc).1.length
        = acc.length + min (N - acc.length) (admittedAll ms q seen).length := by
      rw [h1, List.length_append, List.length_take]
    rw [List.flatten_cons, admittedAll_append]
    by_cases h3 : N ≤ (discoverScan ms N q seen acc).1.length
    · simp only [if_pos h3]
      rw [h1]
      congr 1
      have h3' := h3
      rw [haux] at h3'
      have hge : N - acc.length ≤ (admittedAll ms q seen).length := by
        rcases le_or_lt (N - acc.length) ((admittedAll ms q seen).length) with hc | hc
        · exact hc
        · rw [min_eq_right (le_of_lt hc)] at h3'
          omega
      rw [List.take_append_of_le_length hge]
    · simp only [if_neg h3]
      push_neg at h3
      have h3' := h3
      rw [haux] at h3'
      have hq : (admittedAll ms q seen).length < N - acc.length := by
        rcases le_or_lt (N - acc.length) ((admittedAll ms q seen).length) with hc | hc
        · rw [min_eq_left hc] at h3'
          omega
        · exact hc
      have htake : (admittedAll ms q seen).take (N - acc.length) = admittedAll ms q seen :=
        List.take_of_length_le (le_of_lt hq)
      rw [ih (discoverScan ms N q seen acc).2 (discoverScan ms N q seen acc).1 h3,
        h2 h3, h1, htake, List.take_append_eq_append_take, htake, List.append_assoc]
      have harith : N - (acc ++ admittedAll ms q seen).length
          = N - acc.length - (admittedAll ms q seen).length := by
        rw [List.length_append]
        omega
      rw [harith]

/-- Claim C8 (corrected): `discover_repositories` does not rank all admitted
candidates.  It collects admitted candidates in query/result order only until
`max_repos` have been gathered, then sorts that collected prefix by priority
descending: the output is the sorted first-`N` admitted candidates, not the
`N` highest-scoring ones over all queries. -/
theorem C8_discovery (queryResults : List (List Repo)) (max_repos min_stars : Nat) :
    discover_repositories queryResults max_repos min_stars
      = (List.insertionSort priorityGE
          ((admittedAll min_stars queryResults.flatten []).take max_repos)).take max_repos ∧
    List.Sorted priorityGE (discover_repositories queryResults max_repos min_stars) := by
  constructor
  · unfold discover_repositories
    rcases Nat.eq_zero_or_pos max_repos with h0 | hpos
    · subst h0
      rw [List.take_zero, List.take_zero]
    · rw [discoverQueries_eq min_stars max_repos queryResults [] [] (by simpa using hpos)]
      simp
  · unfold discover_repositories
    exact (List.sorted_insertionSort priorityGE _).take

/-- Claim C8 counterexample: with one query page listing a low-scoring
admitted repository before a high-scoring admitted one and `max_repos = 1`,
the function returns the low-scoring repository — not the highest-scoring
admitted candidate. -/
theorem C8_cex :
    discover_repositories [[repoLow, repoHigh]] 1 50 = [toDiscovered repoLow] ∧
    should_audit repoHigh 50 = true ∧
    calculate_priority repoLow < calculate_priority repoHigh ∧
    toDiscovered repoHigh ∉ discover_repositories [[repoLow, repoHigh]] 1 50 := by
  have hLow : calculate_priority repoLow = 1 := by
    rw [calculate_priority_natForm]
    decide
  have hHigh : calculate_priority repoHigh = 100 := by
    rw [calculate_priority_natForm]
    decide
  refine ⟨rfl, by decide, by rw [hLow, hHigh]; decide, ?_⟩
  intro hmem
  rw [show discover_repositories [[repoLow, repoHigh]] 1 50 = [toDiscovered repoLow] from rfl,
    List.mem_singleton] at hmem
  have : repoHigh.stargazers_count = repoLow.stargazers_count :=
    congrArg DiscoveredRepo.stars hmem
  simp [repoHigh, repoLow, mkRepo] at this

end BountyScripts
